import Mathlib

/-!
Verification of the jsonrpc-protection server (src/main.rs): a JSON-RPC
server whose admin methods are gated by an `X-Admin-Auth` header check
performed in a middleware, with two saturating-arithmetic handlers.

The embedding mirrors the Rust source: machine integers (`u8`) are `Nat`
with explicit clamping to `[0, 255]`, fallible values are `Except`, and
the middleware's two-armed `Either` return (respond now vs. proceed to
the dispatcher) is a `Sum`, whose left injection carries the output the
middleware produced itself and whose right injection carries the result
of invoking `next`.
-/

namespace JsonrpcProtection

/-- The `Error` enum of the source: its single variant is produced when the
`X-Admin-Auth` header bytes cannot be decoded as visible ASCII. -/
inductive Error where
  | AdminAuthHeaderParserError
deriving DecidableEq, Repr

/-- The thiserror-derived display string of `Error::AdminAuthHeaderParserError`. -/
def Error.toString : Error → String
  | .AdminAuthHeaderParserError =>
      "X-Admin-Auth header value must contain only visible ASCII characters"

/-- Per-request metadata `RpcMeta { auth: Option<Result<String, Error>> }`. -/
structure RpcMeta where
  auth : Option (Except Error String)

/-- JSON-RPC request id (`jsonrpc_core::Id`). -/
inductive RpcId where
  | null
  | num (n : Nat)
  | str (s : String)
deriving DecidableEq, Repr

/-- JSON-RPC protocol version (`jsonrpc_core::Version`): only `V2` exists. -/
inductive Version where
  | v2
deriving DecidableEq, Repr

/-- Call parameters. The two handlers of this server take two `u8`
positional arguments; every other params shape is collapsed into
`other`, which the middleware never inspects. -/
inductive Params where
  | pair (a b : Nat)
  | other
deriving DecidableEq, Repr

/-- A response-expecting call (`jsonrpc_core::types::request::MethodCall`). -/
structure MethodCall where
  jsonrpc : Option Version
  method : String
  params : Params
  id : RpcId
deriving DecidableEq, Repr

/-- The call envelope (`jsonrpc_core::types::request::Call`): a
response-expecting method call, a fire-and-forget notice, or an invalid
entry. -/
inductive Call where
  | methodCall (mc : MethodCall)
  | notify (jsonrpc : Option Version) (method : String) (params : Params)
  | invalid (id : RpcId)
deriving DecidableEq, Repr

/-- Whether the envelope is the response-expecting variant. -/
def Call.isMethodCall : Call → Bool
  | .methodCall _ => true
  | _ => false

/-- A structured JSON-RPC error (`jsonrpc_core::types::error::Error`):
`{ code, message, data }`. Codes are kept as integers (`InvalidRequest`
is `-32600`); the `data` field is only ever `None` in this program, so it
is modelled as `Option Unit`. -/
structure JsonRpcError where
  code : Int
  message : String
  data : Option Unit
deriving DecidableEq, Repr

/-- The numeric value of `ErrorCode::InvalidRequest`. -/
def invalidRequestCode : Int := -32600

/-- The response unit (`jsonrpc_core::types::response::Output`): success
payload or failure, each correlated to the originating id and carrying
the protocol version. Handler results are `u8`, modelled as `Nat`. -/
inductive Output where
  | success (jsonrpc : Option Version) (result : Nat) (id : RpcId)
  | failure (jsonrpc : Option Version) (error : JsonRpcError) (id : RpcId)
deriving DecidableEq, Repr

/-- `Output::from(result, id, jsonrpc)`: wrap a handler-level result into
an Output. -/
def Output.from : Except JsonRpcError Nat → RpcId → Option Version → Output
  | .ok r, id, jsonrpc => .success jsonrpc r id
  | .error e, id, jsonrpc => .failure jsonrpc e id

/-- The middleware state: the list of protected method names captured at
construction (`ProtectRpcMiddleware { protected: Vec<String> }`).
`protected` is a Lean keyword, hence the field name. -/
structure ProtectRpcMiddleware where
  protectedMethods : List String

/-- `ProtectRpcMiddleware::handle_admin_rpc_call`. `next` is the
continuation to the dispatcher; the result's left injection is an output
the middleware produced itself (so `next` was not invoked), the right
injection is `next`'s result. -/
def handle_admin_rpc_call (self : ProtectRpcMiddleware)
    (next : Call → RpcMeta → Option Output)
    (call : Call) (meta : RpcMeta)
    (jsonrpc : Option Version) (method : String) (id : RpcId) :
    Sum (Option Output) (Option Output) :=
  if self.protectedMethods.contains method then
    let unauthorized_error := fun (message : String) =>
      let error : JsonRpcError :=
        { code := invalidRequestCode, message := message, data := none }
      Sum.inl (some (Output.from (Except.error error) id jsonrpc))
    match meta.auth with
    | none => unauthorized_error "X-Admin-Auth header required"
    | some (Except.error error) => unauthorized_error error.toString
    | some (Except.ok auth) =>
        if auth ≠ "root" then
          unauthorized_error "X-Admin-Auth must be \x27root\x27"
        else
          Sum.inr (next call meta)
  else
    Sum.inr (next call meta)

/-- `Middleware::on_call`: response-expecting calls go through the guard
with their version, method name and id; every other envelope shape is
forwarded to `next` unchanged. -/
def on_call (self : ProtectRpcMiddleware) (call : Call) (meta : RpcMeta)
    (next : Call → RpcMeta → Option Output) :
    Sum (Option Output) (Option Output) :=
  match call with
  | Call.methodCall mc =>
      handle_admin_rpc_call self next call meta mc.jsonrpc mc.method mc.id
  | _ => Sum.inr (next call meta)

/-- Collapse the middleware's two-armed answer into the response the
caller observes, as the transport does when it awaits either future. -/
def runMiddleware (self : ProtectRpcMiddleware) (call : Call) (meta : RpcMeta)
    (next : Call → RpcMeta → Option Output) : Option Output :=
  match on_call self call meta next with
  | Sum.inl out => out
  | Sum.inr out => out

/-- `u8::saturating_mul`, on `Nat` clamped to the byte range. -/
def saturating_mul (a b : Nat) : Nat := min (a * b) 255

/-- `u8::saturating_add`, on `Nat` clamped to the byte range. -/
def saturating_add (a b : Nat) : Nat := min (a + b) 255

/-- `u8::saturating_sub`: `Nat` subtraction already clamps at zero. -/
def saturating_sub (a b : Nat) : Nat := a - b

/-- `MainRpcImpl::g`, the unrestricted handler:
`a.saturating_mul(10).saturating_add(b).saturating_sub(3)`. -/
def MainRpcImpl.g (a b : Nat) : Except JsonRpcError Nat :=
  Except.ok (saturating_sub (saturating_add (saturating_mul a 10) b) 3)

/-- `AdminRpcImpl::f`, the admin handler:
`a.saturating_mul(10).saturating_add(b).saturating_add(2)`. -/
def AdminRpcImpl.f (a b : Nat) : Except JsonRpcError Nat :=
  Except.ok (saturating_add (saturating_add (saturating_mul a 10) b) 2)

/-- The protected-name set built in `main` from the admin delegate: the
admin trait registers exactly the method named "f". -/
def protectedSet : List String := ["f"]

/-- The middleware as constructed in `main`. -/
def protectMiddleware : ProtectRpcMiddleware := ⟨protectedSet⟩

/-- The merged method table of `main`: the public delegate registers "g",
the augmented admin delegate registers "f". -/
def mergedLookup (method : String) : Option (Nat → Nat → Except JsonRpcError Nat) :=
  if method = "g" then some MainRpcImpl.g
  else if method = "f" then some AdminRpcImpl.f
  else none

/-- The `-32601` method-not-found error of the dispatcher. -/
def methodNotFound : JsonRpcError :=
  { code := -32601, message := "Method not found", data := none }

/-- The invalid-params error of the dispatcher. -/
def invalidParams : JsonRpcError :=
  { code := -32602, message := "Invalid params", data := none }

/-- Modelled from the spec: the Dispatcher (`MetaIoHandler` of the
jsonrpc-core dependency, outside this repository's source) resolves
`call.method` in the merged table, returning a method-not-found error
Output when absent and otherwise invoking the handler on the call's
params and wrapping its result into an Output correlated with `call.id`;
notices produce no Output. The handlers ignore the metadata. -/
def dispatch (call : Call) (_meta : RpcMeta) : Option Output :=
  match call with
  | .methodCall mc =>
      match mergedLookup mc.method with
      | some handler =>
          match mc.params with
          | .pair a b => some (Output.from (handler a b) mc.id mc.jsonrpc)
          | .other => some (Output.from (.error invalidParams) mc.id mc.jsonrpc)
      | none => some (Output.from (.error methodNotFound) mc.id mc.jsonrpc)
  | .notify _ _ _ => none
  | .invalid id => some (Output.from (.error
      { code := invalidRequestCode, message := "Invalid request", data := none }) id none)

/-- The visible-ASCII test of `http::HeaderValue::to_str` in the hyper/http
dependency: a byte is accepted when it is in `[32, 126]` or is a tab. -/
def is_visible_ascii (b : Nat) : Bool :=
  (decide (32 ≤ b) && decide (b < 127)) || b == 9

/-- `HeaderValue::to_str` of the hyper/http dependency: yields the decoded
string when every byte is visible ASCII, an opaque decoding error
otherwise. -/
def headerToStr (bytes : List Nat) : Except Unit String :=
  if bytes.all is_visible_ascii then
    .ok (String.mk (bytes.map Char.ofNat))
  else
    .error ()

/-- The meta-extractor closure of `main`: look up the `X-Admin-Auth` header
(modelled as the optional list of its raw bytes), decode it with
`to_str`, and map a decoding failure to `Error::AdminAuthHeaderParserError`. -/
def extractMeta (header : Option (List Nat)) : RpcMeta :=
  { auth := header.map (fun bytes =>
      match headerToStr bytes with
      | .ok s => Except.ok s
      | .error _ => Except.error Error.AdminAuthHeaderParserError) }

/-! Concrete fixtures used by the witness theorems. -/

/-- A response-expecting call to the protected method "f" with params (5, 3). -/
def mcF53 : MethodCall :=
  { jsonrpc := some .v2, method := "f", params := .pair 5 3, id := .num 1 }

/-- A response-expecting call to the unrestricted method "g" with params (5, 3). -/
def mcG53 : MethodCall :=
  { jsonrpc := some .v2, method := "g", params := .pair 5 3, id := .num 2 }

/-- A response-expecting call to the protected method "f" with params (1, 1). -/
def mcF11 : MethodCall :=
  { jsonrpc := some .v2, method := "f", params := .pair 1 1, id := .num 6 }

/-- Metadata with no `X-Admin-Auth` header. -/
def metaNone : RpcMeta := ⟨none⟩

/-- Metadata with header value "root". -/
def metaRoot : RpcMeta := ⟨some (Except.ok "root")⟩

/-- Metadata with header value "toor". -/
def metaToor : RpcMeta := ⟨some (Except.ok "toor")⟩

/-- Metadata with a header that failed ASCII decoding. -/
def metaBad : RpcMeta := ⟨some (Except.error Error.AdminAuthHeaderParserError)⟩

/-! Helper lemmas shared by several claim theorems. -/

/-- Characterization of every short-circuit answer of the middleware: a
left injection only arises from a response-expecting call to a protected
method, and it always carries a failure Output with code `-32600`, no
data, and the call's own id and version. -/
theorem on_call_inl_shape
    (mw : ProtectRpcMiddleware) (call : Call) (meta : RpcMeta)
    (next : Call → RpcMeta → Option Output) (o : Option Output)
    (h : on_call mw call meta next = Sum.inl o) :
    ∃ mc msg, call = Call.methodCall mc ∧
      mw.protectedMethods.contains mc.method = true ∧
      o = some (Output.failure mc.jsonrpc
        { code := invalidRequestCode, message := msg, data := none } mc.id) := by
  cases call with
  | notify jsonrpc method params => simp [on_call] at h
  | invalid id => simp [on_call] at h
  | methodCall mc =>
      refine ⟨mc, ?_⟩
      simp only [on_call, handle_admin_rpc_call] at h
      by_cases hp : mw.protectedMethods.contains mc.method = true
      · simp only [hp, if_true] at h
        match hauth : meta.auth with
        | none =>
            simp only [hauth, Output.from, Sum.inl.injEq] at h
            exact ⟨"X-Admin-Auth header required", rfl, hp, h.symm⟩
        | some (Except.error e) =>
            simp only [hauth, Output.from, Sum.inl.injEq] at h
            exact ⟨Error.toString e, rfl, hp, h.symm⟩
        | some (Except.ok v) =>
            by_cases hv : v = "root"
            · rw [hauth] at h
              simp [hv] at h
            · simp only [hauth, ne_eq, hv, not_false_eq_true, if_true,
                Output.from, Sum.inl.injEq, reduceIte] at h
              exact ⟨"X-Admin-Auth must be \x27root\x27", rfl, hp, h.symm⟩
      · rw [Bool.not_eq_true] at hp
        rw [hp] at h
        simp at h

/-- C1: for every response-expecting call whose method is in the protected
set and whose metadata has no auth header, the guard answers with a left
injection — an error Output with code `-32600` (InvalidRequest), message
"X-Admin-Auth header required" and no data, correlated to the call's id
and protocol-version field — and, the answer being the left injection and
independent of `next`, the dispatcher is never invoked. -/
theorem missing_auth_header_rejected
    (mw : ProtectRpcMiddleware) (mc : MethodCall) (meta : RpcMeta)
    (next : Call → RpcMeta → Option Output)
    (hp : mw.protectedMethods.contains mc.method = true)
    (ha : meta.auth = none) :
    on_call mw (Call.methodCall mc) meta next =
      Sum.inl (some (Output.failure mc.jsonrpc
        { code := -32600, message := "X-Admin-Auth header required", data := none }
        mc.id)) := by
  simp [on_call, handle_admin_rpc_call, ha, Output.from, invalidRequestCode]
  simpa using hp

/-- Witness for C1: the call `f(5, 3)` with no header is short-circuited
with the "header required" error. -/
theorem missing_auth_header_rejected_witness :
    on_call protectMiddleware (Call.methodCall mcF53) metaNone dispatch =
      Sum.inl (some (Output.failure (some .v2)
        { code := -32600, message := "X-Admin-Auth header required", data := none }
        (.num 1))) :=
  missing_auth_header_rejected protectMiddleware mcF53 metaNone dispatch rfl rfl

/-- C2: for every response-expecting call to a protected method whose
metadata carries a decoded header value different from "root", the guard
answers with a left injection — an InvalidRequest error Output with
message "X-Admin-Auth must be 'root'" — and never invokes `next`. -/
theorem wrong_auth_value_rejected
    (mw : ProtectRpcMiddleware) (mc : MethodCall) (meta : RpcMeta)
    (next : Call → RpcMeta → Option Output) (v : String)
    (hp : mw.protectedMethods.contains mc.method = true)
    (ha : meta.auth = some (Except.ok v))
    (hv : v ≠ "root") :
    on_call mw (Call.methodCall mc) meta next =
      Sum.inl (some (Output.failure mc.jsonrpc
        { code := -32600, message := "X-Admin-Auth must be \x27root\x27", data := none }
        mc.id)) := by
  simp [on_call, handle_admin_rpc_call, ha, hv, Output.from, invalidRequestCode]
  simpa using hp

/-- Witness for C2: the call `f(5, 3)` with header value "toor" is
short-circuited with the "must be root" error. -/
theorem wrong_auth_value_rejected_witness :
    on_call protectMiddleware (Call.methodCall mcF53) metaToor dispatch =
      Sum.inl (some (Output.failure (some .v2)
        { code := -32600, message := "X-Admin-Auth must be \x27root\x27", data := none }
        (.num 1))) :=
  wrong_auth_value_rejected protectMiddleware mcF53 metaToor dispatch "toor"
    rfl rfl (by decide)

/-- C3: for every response-expecting call to a protected method whose
metadata is `Some(Ok("root"))`, the guard forwards the call and metadata
to `next` unchanged, so the observed result equals what the dispatcher —
and hence the underlying handler on identical parameters — produces. -/
theorem root_auth_forwards_to_next
    (mw : ProtectRpcMiddleware) (mc : MethodCall) (meta : RpcMeta)
    (hp : mw.protectedMethods.contains mc.method = true)
    (ha : meta.auth = some (Except.ok "root")) :
    (∀ next, on_call mw (Call.methodCall mc) meta next =
        Sum.inr (next (Call.methodCall mc) meta)) ∧
    runMiddleware mw (Call.methodCall mc) meta dispatch =
      dispatch (Call.methodCall mc) meta := by
  have hfwd : ∀ next : Call → RpcMeta → Option Output,
      on_call mw (Call.methodCall mc) meta next =
        Sum.inr (next (Call.methodCall mc) meta) := by
    intro next
    simp [on_call, handle_admin_rpc_call, hp, ha]
  exact ⟨hfwd, by rw [runMiddleware, hfwd dispatch]⟩

/-- Witness for C3: the call `f(5, 3)` with header "root" goes through to
the dispatcher, which returns the handler's success value `55`. -/
theorem root_auth_forwards_to_next_witness :
    (protectMiddleware.protectedMethods.contains mcF53.method = true ∧
      metaRoot.auth = some (Except.ok "root")) ∧
    runMiddleware protectMiddleware (Call.methodCall mcF53) metaRoot dispatch =
      dispatch (Call.methodCall mcF53) metaRoot ∧
    dispatch (Call.methodCall mcF53) metaRoot =
      some (Output.success (some .v2) 55 (.num 1)) :=
  ⟨⟨rfl, rfl⟩,
    (root_auth_forwards_to_next protectMiddleware mcF53 metaRoot rfl rfl).2,
    rfl⟩

/-- C4: for every response-expecting call to a protected method whose
metadata is `Some(Err(e))`, the guard short-circuits with an error Output
whose message is the stringified header-encoding error, which differs
from both the "required" and the "must be" messages; and for calls whose
method is not protected the guard forwards to `next` unchanged whatever
the metadata is, so a malformed header never affects them. -/
theorem malformed_header_error_surfaced
    (mw : ProtectRpcMiddleware) (mc : MethodCall) (meta : RpcMeta)
    (next : Call → RpcMeta → Option Output) (e : Error)
    (hp : mw.protectedMethods.contains mc.method = true)
    (ha : meta.auth = some (Except.error e)) :
    (on_call mw (Call.methodCall mc) meta next =
      Sum.inl (some (Output.failure mc.jsonrpc
        { code := -32600, message := Error.toString e, data := none } mc.id))) ∧
    Error.toString e ≠ "X-Admin-Auth header required" ∧
    Error.toString e ≠ "X-Admin-Auth must be \x27root\x27" ∧
    (∀ mc2 : MethodCall, ∀ meta2 : RpcMeta,
      ∀ next2 : Call → RpcMeta → Option Output,
      mw.protectedMethods.contains mc2.method = false →
        on_call mw (Call.methodCall mc2) meta2 next2 =
          Sum.inr (next2 (Call.methodCall mc2) meta2)) := by
  refine ⟨?_, ?_, ?_, ?_⟩
  · simp [on_call, handle_admin_rpc_call, ha, Output.from, invalidRequestCode]
    simpa using hp
  · cases e; decide
  · cases e; decide
  · intro mc2 meta2 next2 hp2
    simp only [on_call, handle_admin_rpc_call, hp2]
    simp

/-- Witness for C4: the call `f(1, 1)` with an undecodable header is
short-circuited with the visible-ASCII error message. -/
theorem malformed_header_error_surfaced_witness :
    on_call protectMiddleware (Call.methodCall mcF11) metaBad dispatch =
      Sum.inl (some (Output.failure (some .v2)
        { code := -32600,
          message := "X-Admin-Auth header value must contain only visible ASCII characters",
          data := none }
        (.num 6))) :=
  (malformed_header_error_surfaced protectMiddleware mcF11
    metaBad dispatch Error.AdminAuthHeaderParserError rfl rfl).1

/-- C5: on byte inputs, handler `g` computes
`saturating_sub (saturating_add (saturating_mul a 10) b) 3` and handler
`f` computes `saturating_add (saturating_add (saturating_mul a 10) b) 2`,
every intermediate clamped to `[0, 255]`; both always succeed and their
results stay in the byte range. -/
theorem handlers_saturating_arithmetic (a b : Nat)
    (ha : a ≤ 255) (hb : b ≤ 255) :
    MainRpcImpl.g a b = Except.ok (min (min (a * 10) 255 + b) 255 - 3) ∧
    AdminRpcImpl.f a b = Except.ok (min (min (min (a * 10) 255 + b) 255 + 2) 255) ∧
    (∃ r, MainRpcImpl.g a b = Except.ok r ∧ r ≤ 255) ∧
    (∃ r, AdminRpcImpl.f a b = Except.ok r ∧ r ≤ 255) := by
  refine ⟨rfl, rfl, ⟨_, rfl, ?_⟩, ⟨_, rfl, ?_⟩⟩
  · exact le_trans (Nat.sub_le _ _) (min_le_right _ _)
  · exact min_le_right _ _

/-- Witness for C5: the concrete values `g(5,3) = 50`, `g(0,0) = 0`,
`f(5,3) = 55` and `f(255,255) = 255`, the last saturating at every step. -/
theorem handlers_saturating_arithmetic_witness :
    (MainRpcImpl.g 5 3 = Except.ok (min (min (5 * 10) 255 + 3) 255 - 3) ∧
      AdminRpcImpl.f 5 3 = Except.ok (min (min (min (5 * 10) 255 + 3) 255 + 2) 255)) ∧
    MainRpcImpl.g 5 3 = Except.ok 50 ∧
    MainRpcImpl.g 0 0 = Except.ok 0 ∧
    AdminRpcImpl.f 5 3 = Except.ok 55 ∧
    AdminRpcImpl.f 255 255 = Except.ok 255 :=
  ⟨⟨(handlers_saturating_arithmetic 5 3 (by decide) (by decide)).1,
    (handlers_saturating_arithmetic 5 3 (by decide) (by decide)).2.1⟩,
    rfl, rfl, rfl, rfl⟩

/-- C6: for every response-expecting call whose method is not in the
protected set, the guard forwards to `next` unchanged whatever the
metadata is, and the observed response through the dispatcher is the same
for any two metadata values — the header never influences the result. -/
theorem unprotected_methods_ignore_auth
    (mw : ProtectRpcMiddleware) (mc : MethodCall)
    (hp : mw.protectedMethods.contains mc.method = false) :
    (∀ meta : RpcMeta, ∀ next : Call → RpcMeta → Option Output,
      on_call mw (Call.methodCall mc) meta next =
        Sum.inr (next (Call.methodCall mc) meta)) ∧
    (∀ meta1 meta2 : RpcMeta,
      runMiddleware mw (Call.methodCall mc) meta1 dispatch =
        runMiddleware mw (Call.methodCall mc) meta2 dispatch) := by
  have hfwd : ∀ meta : RpcMeta, ∀ next : Call → RpcMeta → Option Output,
      on_call mw (Call.methodCall mc) meta next =
        Sum.inr (next (Call.methodCall mc) meta) := by
    intro meta next
    simp only [on_call, handle_admin_rpc_call, hp]
    simp
  refine ⟨hfwd, fun meta1 meta2 => ?_⟩
  rw [runMiddleware, runMiddleware, hfwd meta1 dispatch, hfwd meta2 dispatch]
  rfl

/-- Witness for C6: the call `g(5, 3)` yields success `50` both with no
header and with a malformed header. -/
theorem unprotected_methods_ignore_auth_witness :
    protectMiddleware.protectedMethods.contains mcG53.method = false ∧
    runMiddleware protectMiddleware (Call.methodCall mcG53) metaNone dispatch =
      runMiddleware protectMiddleware (Call.methodCall mcG53) metaBad dispatch ∧
    runMiddleware protectMiddleware (Call.methodCall mcG53) metaNone dispatch =
      some (Output.success (some .v2) 50 (.num 2)) :=
  ⟨rfl,
    (unprotected_methods_ignore_auth protectMiddleware mcG53 rfl).2 metaNone metaBad,
    rfl⟩

/-- C7: every call envelope that is not the response-expecting variant —
a notice or an invalid entry — is forwarded to `next` unchanged with no
authorization check, whatever method name it mentions and whatever the
metadata holds. -/
theorem non_method_calls_bypass_checks
    (mw : ProtectRpcMiddleware) (call : Call) (meta : RpcMeta)
    (next : Call → RpcMeta → Option Output)
    (h : call.isMethodCall = false) :
    on_call mw call meta next = Sum.inr (next call meta) := by
  cases call with
  | methodCall mc => simp [Call.isMethodCall] at h
  | notify jsonrpc method params => rfl
  | invalid id => rfl

/-- Witness for C7: a notice naming the protected method "f" with no
credentials is passed through unchecked. -/
theorem non_method_calls_bypass_checks_witness :
    (Call.notify (some .v2) "f" (.pair 5 3)).isMethodCall = false ∧
    on_call protectMiddleware (Call.notify (some .v2) "f" (.pair 5 3))
        metaNone dispatch =
      Sum.inr (dispatch (Call.notify (some .v2) "f" (.pair 5 3)) metaNone) :=
  ⟨rfl,
    non_method_calls_bypass_checks protectMiddleware
      (Call.notify (some .v2) "f" (.pair 5 3)) metaNone dispatch rfl⟩

/-- C8: every Output the middleware produces itself is built from the
originating MethodCall's own id and protocol-version values, which it
echoes exactly. -/
theorem error_output_echoes_id_and_version
    (mw : ProtectRpcMiddleware) (call : Call) (meta : RpcMeta)
    (next : Call → RpcMeta → Option Output) (o : Option Output)
    (h : on_call mw call meta next = Sum.inl o) :
    ∃ mc : MethodCall, ∃ e : JsonRpcError,
      call = Call.methodCall mc ∧
      o = some (Output.failure mc.jsonrpc e mc.id) := by
  obtain ⟨mc, msg, hc, _, ho⟩ := on_call_inl_shape mw call meta next o h
  exact ⟨mc, _, hc, ho⟩

/-- Witness for C8: the error produced for `f(5, 3)` without a header
carries that call's id `1` and version `V2`. -/
theorem error_output_echoes_id_and_version_witness :
    on_call protectMiddleware (Call.methodCall mcF53) metaNone dispatch =
      Sum.inl (some (Output.failure (some .v2)
        { code := -32600, message := "X-Admin-Auth header required", data := none }
        (.num 1))) ∧
    (∃ mc : MethodCall, ∃ e : JsonRpcError,
      Call.methodCall mcF53 = Call.methodCall mc ∧
      some (Output.failure (some Version.v2)
          { code := -32600, message := "X-Admin-Auth header required", data := none }
          (RpcId.num 1)) =
        some (Output.failure mc.jsonrpc e mc.id)) :=
  ⟨rfl,
    error_output_echoes_id_and_version protectMiddleware
      (Call.methodCall mcF53) metaNone dispatch _ rfl⟩

/-- C9: the meta extractor returns `None` when the header is absent,
`Some(Ok(decoded))` when it is present with every byte printable ASCII,
and `Some(Err(AdminAuthHeaderParserError))` when it is present but
decoding fails; it is a plain function of the header bytes. -/
theorem meta_extractor_cases (header : Option (List Nat)) :
    (header = none → extractMeta header = ⟨none⟩) ∧
    (∀ bytes, header = some bytes → (∀ b ∈ bytes, 32 ≤ b ∧ b ≤ 126) →
      extractMeta header =
        ⟨some (Except.ok (String.mk (bytes.map Char.ofNat)))⟩) ∧
    (∀ bytes, header = some bytes → bytes.all is_visible_ascii = false →
      extractMeta header =
        ⟨some (Except.error Error.AdminAuthHeaderParserError)⟩) := by
  refine ⟨fun h => by rw [h]; rfl, ?_, ?_⟩
  · intro bytes hh hb
    subst hh
    have hall : bytes.all is_visible_ascii = true := by
      rw [List.all_eq_true]
      intro b hbm
      have := hb b hbm
      simp only [is_visible_ascii, Bool.or_eq_true, Bool.and_eq_true,
        decide_eq_true_eq]
      left
      omega
    have hok : headerToStr bytes = Except.ok (String.mk (bytes.map Char.ofNat)) := by
      unfold headerToStr
      rw [if_pos hall]
    simp [extractMeta, hok]
  · intro bytes hh hall
    subst hh
    have herr : headerToStr bytes = Except.error () := by
      unfold headerToStr
      rw [if_neg]
      simp [hall]
    simp [extractMeta, herr]

/-- Witness for C9: no header gives `None`; the bytes of "root" decode to
`Ok("root")`; a header containing byte `0xFF` gives the parse error. -/
theorem meta_extractor_cases_witness :
    extractMeta none = ⟨none⟩ ∧
    extractMeta (some [114, 111, 111, 116]) = ⟨some (Except.ok "root")⟩ ∧
    extractMeta (some [114, 255]) =
      ⟨some (Except.error Error.AdminAuthHeaderParserError)⟩ := by
  refine ⟨(meta_extractor_cases none).1 rfl, ?_,
    (meta_extractor_cases (some [114, 255])).2.2 [114, 255] rfl (by decide)⟩
  have h := (meta_extractor_cases (some [114, 111, 111, 116])).2.1
    [114, 111, 111, 116] rfl (by decide)
  have hs : String.mk (List.map Char.ofNat [114, 111, 111, 116]) = "root" := by
    decide
  rw [hs] at h
  exact h

/-- C10: every Output the middleware short-circuits with is a failure
with code `-32600` and no data, never a success; so every success Output
a caller sees comes from the dispatcher stage. -/
theorem short_circuit_only_invalid_request_errors
    (mw : ProtectRpcMiddleware) (call : Call) (meta : RpcMeta)
    (next : Call → RpcMeta → Option Output) (o : Option Output)
    (h : on_call mw call meta next = Sum.inl o) :
    ∃ mc : MethodCall, ∃ e : JsonRpcError,
      call = Call.methodCall mc ∧
      o = some (Output.failure mc.jsonrpc e mc.id) ∧
      e.code = -32600 ∧ e.data = none ∧
      ∀ jsonrpc r id, o ≠ some (Output.success jsonrpc r id) := by
  obtain ⟨mc, msg, hc, _, ho⟩ := on_call_inl_shape mw call meta next o h
  refine ⟨mc, _, hc, ho, rfl, rfl, fun jsonrpc r id hs => ?_⟩
  rw [ho] at hs
  exact Output.noConfusion (Option.some.inj hs)

/-- Witness for C10: the short-circuit Output for `f(5, 3)` with header
"toor" is the `-32600` failure with no data. -/
theorem short_circuit_only_invalid_request_errors_witness :
    on_call protectMiddleware (Call.methodCall mcF53) metaToor dispatch =
      Sum.inl (some (Output.failure (some .v2)
        { code := -32600, message := "X-Admin-Auth must be \x27root\x27", data := none }
        (.num 1))) ∧
    (∃ mc : MethodCall, ∃ e : JsonRpcError,
      Call.methodCall mcF53 = Call.methodCall mc ∧
      some (Output.failure (some Version.v2)
          { code := -32600, message := "X-Admin-Auth must be \x27root\x27", data := none }
          (RpcId.num 1)) =
        some (Output.failure mc.jsonrpc e mc.id) ∧
      e.code = -32600 ∧ e.data = none ∧
      ∀ jsonrpc r id,
        some (Output.failure (some Version.v2)
            { code := -32600, message := "X-Admin-Auth must be \x27root\x27", data := none }
            (RpcId.num 1)) ≠
          some (Output.success jsonrpc r id)) :=
  ⟨rfl,
    short_circuit_only_invalid_request_errors protectMiddleware
      (Call.methodCall mcF53) metaToor dispatch _ rfl⟩

end JsonrpcProtection
